import Mathlib

/-!
# Verification of the foam-core workspace model

A shallow embedding of `packages/foam-core/src/model/workspace.ts`: the
resource index, the bidirectional link graph, reference resolution, and the
incremental synchronisation handlers, together with theorems settling the
specification's claims about them.

JavaScript objects used as string-keyed dictionaries are modelled as
insertion-ordered association lists (`List (String × α)`): assigning an
existing key keeps its position, assigning a fresh key appends, and the
`delete` operator removes the entry.  A JavaScript `throw` is modelled with
`Except String`; the half-performed in-place mutations preceding a throw are
discarded, since every claim about a throwing path only concerns the fact
that it throws.
-/

/-- A string-keyed dictionary lookup: the value at the first matching key. -/
def mlookup {α : Type} (m : List (String × α)) (k : String) : Option α :=
  (m.find? (fun p => p.1 == k)).map (fun p => p.2)

/-- Key membership in a string-keyed dictionary. -/
def mhas {α : Type} (m : List (String × α)) (k : String) : Bool :=
  (mlookup m k).isSome

/-- Assignment `m[k] = v`: update in place when the key exists, append otherwise. -/
def minsert {α : Type} (m : List (String × α)) (k : String) (v : α) :
    List (String × α) :=
  if mhas m k then m.map (fun p => if p.1 == k then (k, v) else p)
  else m ++ [(k, v)]

/-- The `delete m[k]` operator: removes the entry for `k`. -/
def merase {α : Type} (m : List (String × α)) (k : String) : List (String × α) :=
  m.filter (fun p => !(p.1 == k))

/-- The `a ?? b` operator on missing-value results. -/
def orElseOpt {α : Type} : Option α → Option α → Option α
  | some a, _ => some a
  | none, b => b

/-- `Except.ok` projection, used to state concrete evaluations of fallible code. -/
def exceptOk {α : Type} : Except String α → Option α
  | Except.ok a => some a
  | Except.error _ => none

/-- `Except.error` projection, used to state that a concrete run throws. -/
def exceptError {α : Type} : Except String α → Option String
  | Except.ok _ => none
  | Except.error e => some e

/-- Splits a character list on a separator character, like `String.split`. -/
def splitChar (c : Char) : List Char → List (List Char)
  | [] => [[]]
  | x :: xs =>
    let r := splitChar c xs
    if x = c then [] :: r
    else
      match r with
      | [] => [[x]]
      | y :: ys => (x :: y) :: ys

/-- The segments of a path, split on the `/` separator. -/
def pathSegments (p : String) : List (List Char) :=
  splitChar '/' p.toList

/-- Whether a reference string contains a path separator (`split('/').length > 1`). -/
def hasSeparator (s : String) : Bool :=
  (pathSegments s).length > 1

/-- Whether a string starts with the `/` character. -/
def startsWithSlash (s : String) : Bool :=
  match s.toList with
  | '/' :: _ => true
  | _ => false

/-- Lexicographic order on character lists, by code point. -/
def lexLeChars : List Char → List Char → Bool
  | [], _ => true
  | _ :: _, [] => false
  | a :: as1, b :: bs1 =>
    if a < b then true else if b < a then false else lexLeChars as1 bs1

/-- Modelled from the spec: the comparator of the key-branch sort; the source
sorts with the platform's localeCompare and the spec reads the result as
lexicographic order on identifiers, modelled here by code point. -/
def strLe (a b : String) : Bool := lexLeChars a.toList b.toList

/-- The basename of a path: its last `/`-separated segment. -/
def pathBasenameChars (p : String) : List Char :=
  (pathSegments p).getLastD []

/-- Positions of the `.` characters in a character list. -/
def dotPositions (cs : List Char) : List Nat :=
  (List.range cs.length).filter (fun i => cs.getD i ' ' == '.')

/-- Modelled from the spec: the platform path parser the source imports is not
under the analysed source; per the spec a path's basename splits into a name
and an extension, the extension starting at the last dot of the basename
(a dot in first position, as in a hidden file, starts no extension). -/
def extSplit (basename : List Char) : List Char × List Char :=
  match (dotPositions basename).getLast? with
  | none => (basename, [])
  | some i => if i == 0 then (basename, []) else (basename.take i, basename.drop i)

/-- `path.parse(pathValue).ext`, as a string. -/
def pathExt (pathValue : String) : String :=
  String.mk (extSplit (pathBasenameChars pathValue)).2

/-- `pathToResourceId`: the path itself when it has an extension, the path with
the default extension appended otherwise. -/
def pathToResourceId (pathValue : String) : String :=
  if (pathExt pathValue).length > 0 then pathValue else pathValue ++ ".md"

/-- `pathToResourceName`: the extension-less basename of the path. -/
def pathToResourceName (pathValue : String) : String :=
  String.mk (extSplit (pathBasenameChars pathValue)).1

/-- `pathToPlaceholderId` is the identity on the reference value. -/
def pathToPlaceholderId (value : String) : String := value

/-- Identifier of a resource: scheme and path, with an optional fragment.
Equality is structural, as the spec requires of the external `URI` type. -/
structure URI where
  scheme : String
  path : String
  fragment : String := ""
deriving DecidableEq

/-- `uriToResourceId` from the source. -/
def uriToResourceId (uri : URI) : String := pathToResourceId uri.path

/-- `uriToResourceName` from the source. -/
def uriToResourceName (uri : URI) : String := pathToResourceName uri.path

/-- `uriToPlaceholderId` from the source. -/
def uriToPlaceholderId (uri : URI) : String := pathToPlaceholderId uri.path

/-- Modelled from the spec: the reserved scheme denoting a placeholder
identifier (the `placeholderUri` utility is not under the analysed source). -/
def placeholderUri (p : String) : URI := ⟨"placeholder", p, ""⟩

/-- Modelled from the spec: a placeholder identifier is one carrying the
reserved placeholder scheme. -/
def isPlaceholder (u : URI) : Bool := u.scheme == "placeholder"

/-- Modelled from the spec: identifier equality is structural. -/
def isSameUri (a b : URI) : Bool := a == b

/-- `URI.file` of the external library: a file-scheme identifier at a path. -/
def URI.file (p : String) : URI := ⟨"file", p, ""⟩

/-- Drops the last segment of a path (the directory part). -/
def dirSegments (p : String) : List (List Char) :=
  (pathSegments p).dropLast

/-- Resolves `.` and `..` segments against an accumulated reversed prefix. -/
def normSegments : List (List Char) → List (List Char) → List (List Char)
  | acc, [] => acc.reverse
  | acc, [] :: rest => normSegments acc rest
  | acc, ['.'] :: rest => normSegments acc rest
  | acc, ['.', '.'] :: rest => normSegments acc.tail rest
  | acc, s :: rest => normSegments (s :: acc) rest

/-- Joins segments back into a `/`-separated string. -/
def joinSegments (segs : List (List Char)) : String :=
  match segs with
  | [] => ""
  | s :: rest => rest.foldl (fun acc t => acc ++ "/" ++ String.mk t) (String.mk s)

/-- Normalises a path: resolves `.` and `..`, collapses empty segments, and
keeps a leading `/` when the input is absolute. -/
def normalizePath (p : String) : String :=
  (if startsWithSlash p then "/" else "") ++
    joinSegments (normSegments [] (pathSegments p))

/-- Modelled from the spec: parse a literal reference string into an identifier
given an origin (an external path utility, not under the analysed source):
an absolute reference keeps its own path, a relative one is joined to the
origin's directory. -/
def parseUri (base : URI) (s : String) : URI :=
  if startsWithSlash s then ⟨base.scheme, normalizePath s, ""⟩
  else ⟨base.scheme, normalizePath (joinSegments (dirSegments base.path) ++ "/" ++ s), ""⟩

/-- Modelled from the spec: compute the identifier of a relative reference
against the origin identifier (an external path utility, not under the
analysed source). -/
def computeRelativeURI (reference : URI) (relativePath : String) : URI :=
  ⟨reference.scheme,
    normalizePath (joinSegments (dirSegments reference.path) ++ "/" ++ relativePath), ""⟩

/-- A source position point (line and column). -/
structure Point where
  line : Nat
  column : Nat
deriving DecidableEq

/-- A source position (start and end points). -/
structure Position where
  start : Point
  stop : Point
deriving DecidableEq

/-- A declared reference of a note: a wikilink carries a slug, a direct link
carries a literal target string; both carry a source position. -/
inductive NoteLink where
  | wikilink (slug : String) (position : Position)
  | link (target : String) (position : Position)
deriving DecidableEq

/-- The position carried by a link. -/
def NoteLink.position : NoteLink → Position
  | .wikilink _ p => p
  | .link _ p => p

/-- Whether a link is a wikilink (its `type` tag). -/
def NoteLink.isWiki : NoteLink → Bool
  | .wikilink _ _ => true
  | .link _ _ => false

/-- A named definition of a note, mapping a label to a target string. -/
structure NoteDefinition where
  label : String
  url : String
deriving DecidableEq

/-- A real document: identifier, ordered links, ordered definitions. -/
structure Note where
  uri : URI
  links : List NoteLink
  definitions : List NoteDefinition
deriving DecidableEq

/-- A resource: a real note or a placeholder standing in for an unresolved
reference target. -/
inductive Resource where
  | note (n : Note)
  | placeholder (uri : URI)
deriving DecidableEq

/-- The identifier of a resource. -/
def Resource.uri : Resource → URI
  | .note n => n.uri
  | .placeholder u => u

/-- A resolved edge of the link graph. -/
structure Connection where
  source : URI
  target : URI
  link : NoteLink
deriving DecidableEq

/-- `isSamePoint` from the source. -/
def isSamePoint (a b : Point) : Bool :=
  a.column == b.column && a.line == b.line

/-- `isSamePosition` from the source. -/
def isSamePosition (a b : Position) : Bool :=
  isSamePoint a.start b.start && isSamePoint a.stop b.stop

/-- `isSameLink` from the source: same tag and same position (the slug or
target text is not compared). -/
def isSameLink (a b : NoteLink) : Bool :=
  a.isWiki == b.isWiki && isSamePosition a.position b.position

/-- `isSameConnection` from the source. -/
def isSameConnection (a b : Connection) : Bool :=
  isSameUri a.source b.source && isSameUri a.target b.target && isSameLink a.link b.link

/-- A reference handed to `find`: an already-parsed identifier or a raw string. -/
inductive Reference where
  | uri (u : URI)
  | str (s : String)
deriving DecidableEq

/-- The four classification outcomes of `getReferenceType`. -/
inductive RefType where
  | uri
  | absolutePath
  | relativePath
  | key
deriving DecidableEq

/-- `getReferenceType` from the source: identifiers classify as `uri`; a string
with no separator is a `key`; with a separator it is an absolute path when
rooted and a relative path otherwise. -/
def getReferenceType : Reference → RefType
  | .uri _ => .uri
  | .str s =>
    if hasSeparator s then
      (if startsWithSlash s then .absolutePath else .relativePath)
    else .key

/-- A mutation notification fired by the resource index. -/
inductive Event where
  | added (r : Resource)
  | updated (old : Resource) (new : Resource)
  | deleted (r : Resource)
deriving DecidableEq

/-- The five dictionaries of `FoamWorkspace`. -/
structure Workspace where
  resourcesByName : List (String × List String) := []
  resources : List (String × Resource) := []
  placeholders : List (String × Resource) := []
  links : List (String × List Connection) := []
  backlinks : List (String × List Connection) := []
deriving DecidableEq

/-- A freshly constructed workspace: every dictionary empty. -/
def emptyWorkspace : Workspace := {}

namespace FoamWorkspace

/-- `FoamWorkspace.exists`: whether a resource is stored under the normalized
resource id of the given identifier. -/
def exists_ (w : Workspace) (uri : URI) : Bool :=
  (mlookup w.resources (uriToResourceId uri)).isSome

/-- `FoamWorkspace.find` from the source.  Returns the match (or none) together
with the workspace as left by the call: the key branch sorts the stored
`resourcesByName` list in place when it has at least two entries.  The
unreachable default branch of the source (a throw on an impossible
classification) cannot be selected, since a string never classifies as `uri`. -/
def find (w : Workspace) (resourceId : Reference) (reference : Option URI) :
    Option Resource × Workspace :=
  match resourceId with
  | Reference.uri uri =>
    if uri.scheme == "placeholder" then
      (if mhas w.placeholders uri.path then some (Resource.placeholder uri) else none, w)
    else
      (if exists_ w uri then mlookup w.resources (uriToResourceId uri) else none, w)
  | Reference.str s =>
    match getReferenceType (Reference.str s) with
    | RefType.key =>
      let name := pathToResourceName s
      match mlookup w.resourcesByName name with
      | none => (mlookup w.placeholders (pathToPlaceholderId s), w)
      | some paths =>
        if paths.length == 0 then (mlookup w.placeholders (pathToPlaceholderId s), w)
        else if paths.length == 1 then (mlookup w.resources (paths.headD ""), w)
        else
          let sortedPaths := List.insertionSort (fun a b => strLe a b) paths
          (mlookup w.resources (sortedPaths.headD ""),
            { w with resourcesByName := minsert w.resourcesByName name sortedPaths })
    | RefType.absolutePath =>
      let resourceUri := URI.file s
      (orElseOpt (mlookup w.resources (uriToResourceId resourceUri))
        (mlookup w.placeholders (uriToPlaceholderId resourceUri)), w)
    | RefType.relativePath =>
      match reference with
      | none => (none, w)
      | some ref =>
        let targetUri := computeRelativeURI ref s
        (orElseOpt (mlookup w.resources (uriToResourceId targetUri))
          (mlookup w.placeholders (pathToPlaceholderId s)), w)
    | RefType.uri => (none, w)

/-- `FoamWorkspace.get`: the found resource, or the not-found error. -/
def get (w : Workspace) (uri : URI) : Except String Resource :=
  match (find w (Reference.uri uri) none).1 with
  | some n => Except.ok n
  | none => Except.error ("Resource not found: " ++ uri.path)

/-- `FoamWorkspace.list`: all stored resources followed by all placeholders. -/
def list (w : Workspace) : List Resource :=
  w.resources.map (fun p => p.2) ++ w.placeholders.map (fun p => p.2)

/-- `FoamWorkspace.set` from the source.  Returns the workspace (the source's
return value) together with the notifications fired: none for a placeholder,
`updated` when `find` saw a previous resource at the identifier, `added`
otherwise. -/
def set (w : Workspace) (resource : Resource) : Workspace × List Event :=
  match resource with
  | Resource.placeholder u =>
    ({ w with placeholders := minsert w.placeholders (uriToPlaceholderId u) resource }, [])
  | Resource.note n =>
    let id := uriToResourceId n.uri
    let old := (find w (Reference.uri n.uri) none).1
    let name := uriToResourceName n.uri
    let w1 := { w with resources := minsert w.resources id resource }
    let byName := minsert w1.resourcesByName name
      (((mlookup w1.resourcesByName name).getD []) ++ [id])
    let w2 := { w1 with resourcesByName := byName }
    match old with
    | some o => (w2, [Event.updated o resource])
    | none => (w2, [Event.added resource])

/-- `FoamWorkspace.delete` from the source.  The source filters
`resourcesByName[name]` without a guard, so the call throws when no entry for
the identifier's basename exists; otherwise it returns the removed resource
(or none) and fires `deleted` exactly when a resource was removed. -/
def delete (w : Workspace) (uri : URI) :
    Except String (Workspace × Option Resource × List Event) :=
  let id := uriToResourceId uri
  let deleted := mlookup w.resources id
  let w1 := { w with resources := merase w.resources id }
  let name := uriToResourceName uri
  match mlookup w1.resourcesByName name with
  | none => Except.error "TypeError: workspace.resourcesByName[name] is undefined"
  | some lst =>
    let lst' := lst.filter (fun resId => !(resId == id))
    let w2 :=
      if lst'.length == 0 then { w1 with resourcesByName := merase w1.resourcesByName name }
      else { w1 with resourcesByName := minsert w1.resourcesByName name lst' }
    Except.ok (w2, deleted,
      match deleted with
      | some d => [Event.deleted d]
      | none => [])

/-- `FoamWorkspace.connect`: appends the connection to the source's outgoing
list and to the target's incoming list. -/
def connect (w : Workspace) (source target : URI) (link : NoteLink) : Workspace :=
  let connection : Connection := ⟨source, target, link⟩
  let outE := minsert w.links source.path
    (((mlookup w.links source.path).getD []) ++ [connection])
  let w1 := { w with links := outE }
  let inE := minsert w1.backlinks target.path
    (((mlookup w1.backlinks target.path).getD []) ++ [connection])
  { w1 with backlinks := inE }

/-- The `link` argument of `disconnect`: a specific link, or the wildcard
`true` removing every connection between the source and target. -/
inductive LinkOrWild where
  | one (l : NoteLink)
  | all
deriving DecidableEq

/-- `FoamWorkspace.disconnect` from the source.  The source filters with the
optional-chaining operator but then reads `.length` unconditionally, so the
call throws when the source has no outgoing entry, and likewise when the
target has no incoming entry; otherwise empty entries are pruned and a
placeholder target losing its last incoming connection is deleted. -/
def disconnect (w : Workspace) (source target : URI) (link : LinkOrWild) :
    Except String Workspace :=
  let connectionsToKeep : Connection → Bool :=
    match link with
    | LinkOrWild.all => fun c => !(isSameUri source c.source) || !(isSameUri target c.target)
    | LinkOrWild.one l => fun c => !(isSameConnection ⟨source, target, l⟩ c)
  match mlookup w.links source.path with
  | none => Except.error "TypeError: workspace.links[source.path] is undefined"
  | some ls =>
    let ls' := ls.filter connectionsToKeep
    let w1 :=
      if ls'.length == 0 then { w with links := merase w.links source.path }
      else { w with links := minsert w.links source.path ls' }
    match mlookup w1.backlinks target.path with
    | none => Except.error "TypeError: workspace.backlinks[target.path] is undefined"
    | some bs =>
      let bs' := bs.filter connectionsToKeep
      if bs'.length == 0 then
        let w2 := { w1 with backlinks := merase w1.backlinks target.path }
        Except.ok
          (if isPlaceholder target then
            { w2 with placeholders := merase w2.placeholders (uriToPlaceholderId target) }
          else w2)
      else Except.ok { w1 with backlinks := minsert w1.backlinks target.path bs' }

/-- `FoamWorkspace.resolveLink` from the source: resolves one link of a note to
a target identifier, inserting a placeholder into the index when resolution
misses. -/
def resolveLink (w : Workspace) (note : Note) (link : NoteLink) : URI × Workspace :=
  let step : URI × Workspace :=
    match link with
    | NoteLink.wikilink slug _ =>
      match (note.definitions.find? (fun d => d.label == slug)).map (fun d => d.url) with
      | some definitionUri =>
        let definedUri := parseUri note.uri definitionUri
        let found := find w (Reference.uri definedUri) (some note.uri)
        (match found.1 with
          | some r => r.uri
          | none => placeholderUri definedUri.path, found.2)
      | none =>
        let found := find w (Reference.str slug) (some note.uri)
        (match found.1 with
          | some r => r.uri
          | none => placeholderUri slug, found.2)
    | NoteLink.link target _ =>
      let found := find w (Reference.str target) (some note.uri)
      (match found.1 with
        | some r => r.uri
        | none => placeholderUri (parseUri note.uri target).path, found.2)
  if isPlaceholder step.1 then (step.1, (set step.2 (Resource.placeholder step.1)).1)
  else step

/-- `FoamWorkspace.resolveResource` from the source: drops the note's outgoing
entry, then resolves and connects each of its links in order.  (The source
does not remove the dropped connections from the targets' incoming lists.) -/
def resolveResource (w : Workspace) (resource : Resource) : Workspace :=
  match resource with
  | Resource.placeholder _ => w
  | Resource.note n =>
    let w1 := { w with links := merase w.links n.uri.path }
    n.links.foldl
      (fun acc link =>
        let r := resolveLink acc n link
        connect r.2 n.uri r.1 link)
      w1

/-- `FoamWorkspace.resolveLinks` (the full-rebuild part): clears the two link
maps and the placeholder map, then resolves every listed resource in order.
The `keepMonitoring` subscription is modelled by `setI` and `deleteI` below. -/
def resolveLinks (w : Workspace) : Workspace :=
  let w1 := { w with links := [], backlinks := [], placeholders := [] }
  (list w1).foldl (fun acc r => resolveResource acc r) w1

end FoamWorkspace

/-- Length of a longest common subsequence witness of two link lists, used by
the structural list diff. -/
def lcsLinks : List NoteLink → List NoteLink → List NoteLink
  | [], _ => []
  | _ :: _, [] => []
  | a :: xs, b :: ys =>
    if a = b then a :: lcsLinks xs ys
    else
      let l1 := lcsLinks (a :: xs) ys
      let l2 := lcsLinks xs (b :: ys)
      if l2.length ≤ l1.length then l1 else l2
termination_by x y => x.length + y.length

/-- Removes one occurrence of a subsequence from a list, keeping the rest. -/
def dropSubseq : List NoteLink → List NoteLink → List NoteLink
  | xs, [] => xs
  | [], _ :: _ => []
  | x :: xs, y :: ys =>
    if x = y then dropSubseq xs ys else x :: dropSubseq xs (y :: ys)

/-- Modelled from the spec: the structural list diff the source imports
(fast-array-diff under deep equality, not under the analysed source), as a
longest-common-subsequence diff returning the removed and added sublists. -/
def linksDiff (old new : List NoteLink) : List NoteLink × List NoteLink :=
  let c := lcsLinks old new
  (dropSubseq old c, dropSubseq new c)

namespace FoamWorkspace

/-- `FoamWorkspace.updateLinksForResource` from the source: fatal when the two
resources have different paths; otherwise disconnects each removed link of the
diff (resolved against the old note) and connects each added one (resolved
against the new note). -/
def updateLinksForResource (w : Workspace) (oldResource newResource : Resource) :
    Except String Workspace :=
  if !(oldResource.uri.path == newResource.uri.path) then
    Except.error "Unexpected State: update should only be called on same resource "
  else
    match oldResource, newResource with
    | Resource.note o, Resource.note n =>
      let patch := linksDiff o.links n.links
      match patch.1.foldlM
          (fun ws link =>
            let r := resolveLink ws o link
            disconnect r.2 o.uri r.1 (LinkOrWild.one link))
          w with
      | Except.error e => Except.error e
      | Except.ok w1 =>
        Except.ok (patch.2.foldl
          (fun ws link =>
            let r := resolveLink ws n link
            connect r.2 n.uri r.1 link)
          w1)
    | _, _ => Except.ok w

/-- `FoamWorkspace.updateLinksRelatedToAddedResource` from the source: when a
placeholder is stored under the added resource's basename, deletes it and
re-resolves the source note of every connection arriving at the placeholder's
path (the stored incoming entry itself is left behind); then resolves the
added resource. -/
def updateLinksRelatedToAddedResource (w : Workspace) (resource : Resource) :
    Except String Workspace :=
  let name := uriToResourceName resource.uri
  match mlookup w.placeholders name with
  | some placeholder =>
    let w1 := { w with placeholders := merase w.placeholders name }
    let resourcesToUpdate := (mlookup w1.backlinks placeholder.uri.path).getD []
    match resourcesToUpdate.foldlM
        (fun ws (c : Connection) =>
          match get ws c.source with
          | Except.ok res => Except.ok (resolveResource ws res)
          | Except.error e => Except.error e)
        w1 with
    | Except.error e => Except.error e
    | Except.ok w2 => Except.ok (resolveResource w2 resource)
  | none => Except.ok (resolveResource w resource)

/-- `FoamWorkspace.updateLinksRelatedToDeletedResource` from the source: drops
the deleted resource's outgoing entry and disconnects each of its connections,
then drops its incoming entry and re-resolves the source note of each captured
incoming connection. -/
def updateLinksRelatedToDeletedResource (w : Workspace) (resource : Resource) :
    Except String Workspace :=
  let uri := resource.uri
  let pointedByDeleted := (mlookup w.links uri.path).getD []
  let w1 := { w with links := merase w.links uri.path }
  match pointedByDeleted.foldlM
      (fun ws (c : Connection) => disconnect ws uri c.target (LinkOrWild.one c.link))
      w1 with
  | Except.error e => Except.error e
  | Except.ok w2 =>
    let pointingToDeleted := (mlookup w2.backlinks uri.path).getD []
    let w3 := { w2 with backlinks := merase w2.backlinks uri.path }
    pointingToDeleted.foldlM
      (fun ws (c : Connection) =>
        match get ws c.source with
        | Except.ok res => Except.ok (resolveResource ws res)
        | Except.error e => Except.error e)
      w3

/-- Dispatches one notification to the handler `resolveLinks(true)` subscribes
for it. -/
def handleEvent (w : Workspace) (e : Event) : Except String Workspace :=
  match e with
  | Event.added r => updateLinksRelatedToAddedResource w r
  | Event.updated o n => updateLinksForResource w o n
  | Event.deleted r => updateLinksRelatedToDeletedResource w r

/-- `set` as observed while incremental mode is active: the notifications the
mutation fires are delivered synchronously to the subscribed handlers. -/
def setI (w : Workspace) (resource : Resource) : Except String Workspace :=
  let r := set w resource
  r.2.foldlM handleEvent r.1

/-- `delete` as observed while incremental mode is active. -/
def deleteI (w : Workspace) (uri : URI) : Except String (Workspace × Option Resource) :=
  match delete w uri with
  | Except.error e => Except.error e
  | Except.ok (w1, removed, evs) =>
    match evs.foldlM handleEvent w1 with
    | Except.error e => Except.error e
    | Except.ok w2 => Except.ok (w2, removed)

end FoamWorkspace

/-! ## Concrete scenario: a note wiki-linking a slug, then the slug's note -/

/-- A fixed source position for the scenario links. -/
def pos1 : Position := ⟨⟨1, 1⟩, ⟨1, 2⟩⟩

/-- The wikilink of note `a.md`, referencing the slug `b`. -/
def linkToB : NoteLink := NoteLink.wikilink "b" pos1

/-- The identifier of note `a.md`. -/
def uriA : URI := ⟨"file", "/a.md", ""⟩

/-- The identifier of note `b.md`. -/
def uriB : URI := ⟨"file", "/b.md", ""⟩

/-- Note `a.md`: one wikilink to the slug `b`, no definitions. -/
def noteA : Note := ⟨uriA, [linkToB], []⟩

/-- Note `b.md`: no links, no definitions. -/
def noteB : Note := ⟨uriB, [], []⟩

/-- The empty workspace after `resolveLinks(keepMonitoring = true)`: incremental
mode active, graph empty. -/
def w0 : Workspace := FoamWorkspace.resolveLinks emptyWorkspace

/-- The workspace after `set(noteA)` under incremental mode: `a.md` linked to
the placeholder `b`. -/
def w1 : Workspace :=
  (exceptOk (FoamWorkspace.setI w0 (Resource.note noteA))).getD emptyWorkspace

/-- The workspace after `set(noteB)` under incremental mode: the placeholder
`b` was promoted to the real note `b.md`. -/
def w2 : Workspace :=
  (exceptOk (FoamWorkspace.setI w1 (Resource.note noteB))).getD emptyWorkspace

/-- The connection from `a.md` to the placeholder `b`. -/
def connAPh : Connection := ⟨uriA, placeholderUri "b", linkToB⟩

/-- The connection from `a.md` to the real note `b.md`. -/
def connAB : Connection := ⟨uriA, uriB, linkToB⟩

/-! ## Concrete scenario: a stored placeholder whose path already names a note -/

/-- A placeholder identifier whose path carries an extension. -/
def phBU : URI := ⟨"placeholder", "/b.md", ""⟩

/-- A workspace holding both the placeholder at `/b.md` and the note `b.md`,
reached by two public `set` calls. -/
def wC9 : Workspace :=
  (FoamWorkspace.set (FoamWorkspace.set emptyWorkspace (Resource.placeholder phBU)).1
    (Resource.note noteB)).1

/-! ## Concrete scenario: two notes sharing the basename `note` -/

/-- The note stored at `/a/note.md`. -/
def noteAN : Note := ⟨⟨"file", "/a/note.md", ""⟩, [], []⟩

/-- The note stored at `/b/note.md`. -/
def noteBN : Note := ⟨⟨"file", "/b/note.md", ""⟩, [], []⟩

/-- Both notes inserted with the lexicographically larger id first. -/
def wNotes : Workspace :=
  (FoamWorkspace.set (FoamWorkspace.set emptyWorkspace (Resource.note noteBN)).1
    (Resource.note noteAN)).1

/-! ## Concrete scenario: a relative reference with a placeholder fallback -/

/-- The origin identifier for the relative lookup. -/
def oRel : URI := ⟨"file", "/dir/a.md", ""⟩

/-- A placeholder keyed by the raw reference text `sub/b.md`. -/
def phRel : URI := ⟨"placeholder", "sub/b.md", ""⟩

/-- A workspace holding only the placeholder keyed by the raw reference text. -/
def wRel : Workspace :=
  (FoamWorkspace.set emptyWorkspace (Resource.placeholder phRel)).1

/-! ## Concrete scenario: a note whose identifier carries the placeholder scheme -/

/-- The placeholder identifier at path `b`. -/
def phB : URI := ⟨"placeholder", "b", ""⟩

/-- A note whose own identifier carries the placeholder scheme. -/
def notePh : Note := ⟨phB, [], []⟩

/-- A workspace holding only the placeholder at path `b`, set publicly. -/
def wPh : Workspace :=
  (FoamWorkspace.set emptyWorkspace (Resource.placeholder phB)).1

/-! ## Claims settled by concrete evaluation of the embedded code -/

/-- Claim C1: starting from the empty graph under incremental mode, the two
calls set(noteA); set(noteB) promote the placeholder `b`, but the resulting
backlinks map retains the stale connection arriving at the placeholder path
`b`, while a fresh full rebuild on the same final resource set has no entry at
`b` at all — the incremental and full-rebuild maps are not equal as sets. -/
theorem incremental_rebuild_divergence :
    exceptOk (FoamWorkspace.setI w0 (Resource.note noteA)) = some w1 ∧
    exceptOk (FoamWorkspace.setI w1 (Resource.note noteB)) = some w2 ∧
    (FoamWorkspace.resolveLinks w2).resources = w2.resources ∧
    connAPh ∈ (mlookup w2.backlinks "b").getD [] ∧
    mlookup (FoamWorkspace.resolveLinks w2).backlinks "b" = none := by decide

/-- Claim C2: after the Added handler promotes the placeholder `b`, the
connection from `a.md` to the placeholder is still listed in the backlinks map
under its target path while no equal connection remains in the links map under
its source path, so the link graph is not symmetric after that handler ran. -/
theorem symmetry_violation_after_promotion :
    connAPh ∈ (mlookup w2.backlinks connAPh.target.path).getD [] ∧
    ¬ connAPh ∈ (mlookup w2.links connAPh.source.path).getD [] := by decide

/-- Claim C3: after the Added handler promotes the placeholder `b`, a
connection whose target is the placeholder id `b` is still present in the
backlinks map, yet `b` is no longer present in the placeholders map — the
claimed iff between placeholder presence and referencing backlinks fails. -/
theorem placeholder_reachability_violation :
    connAPh ∈ (mlookup w2.backlinks "b").getD [] ∧
    isPlaceholder connAPh.target = true ∧
    uriToPlaceholderId connAPh.target = "b" ∧
    mlookup w2.placeholders "b" = none := by decide

/-- Claim C4: deleting `a.md`, a note with one outgoing connection, under
incremental mode throws: the Deleted handler removes the links entry of the
deleted note before disconnecting its connections, and disconnect then reads
the length of the missing entry. -/
theorem disconnect_throws_on_delete :
    mlookup w1.links uriA.path = some [connAPh] ∧
    exceptError (FoamWorkspace.deleteI w1 uriA) =
      some "TypeError: workspace.links[source.path] is undefined" := by decide

/-- Claim C5: deleting an identifier whose basename has no `resourcesByName`
entry throws instead of returning none: the source filters the entry without
guarding against its absence. -/
theorem delete_throws_on_unknown_basename :
    mlookup emptyWorkspace.resources (uriToResourceId ⟨"file", "/nope.md", ""⟩) = none ∧
    exceptError (FoamWorkspace.delete emptyWorkspace ⟨"file", "/nope.md", ""⟩) =
      some "TypeError: workspace.resourcesByName[name] is undefined" := by decide

/-- Claim C6, counterexample, in two parts.  Return clause: were the return
value of `set` the previously stored resource, the two calls on the empty
workspace — both storing nothing at the given id — would return equal values,
but the code returns the two distinct updated workspaces.  Event clause:
setting a note whose identifier carries the placeholder scheme, on a workspace
storing a placeholder at its path, emits `Updated` even though no note was
stored at that id, where the claim demands `Added`. -/
theorem set_contract_counterexample :
    (mlookup emptyWorkspace.resources (uriToResourceId noteA.uri) = none ∧
      mlookup emptyWorkspace.resources (uriToResourceId noteB.uri) = none ∧
      (FoamWorkspace.set emptyWorkspace (Resource.note noteA)).1 ≠
        (FoamWorkspace.set emptyWorkspace (Resource.note noteB)).1) ∧
    (mlookup wPh.resources (uriToResourceId notePh.uri) = none ∧
      (FoamWorkspace.set wPh (Resource.note notePh)).2 =
        [Event.updated (Resource.placeholder phB) (Resource.note notePh)]) := by decide

/-- Claim C9, counterexample: the placeholder at `/b.md` is returned by
`list()`, yet `exists` on its identifier returns true, not false, because a
note is stored at the same normalized id. -/
theorem exists_true_for_listed_placeholder :
    Resource.placeholder phBU ∈ FoamWorkspace.list wC9 ∧
    isPlaceholder phBU = true ∧
    FoamWorkspace.exists_ wC9 phBU = true := by decide

/-! ## Order-theoretic facts about the sort comparator -/

/-- The lexicographic comparator is reflexive. -/
theorem lexLeChars_refl (xs : List Char) : lexLeChars xs xs = true := by
  induction xs with
  | nil => rfl
  | cons a xs ih => simp [lexLeChars, lt_irrefl, ih]

/-- The lexicographic comparator is total. -/
theorem lexLeChars_total (xs ys : List Char) :
    lexLeChars xs ys = true ∨ lexLeChars ys xs = true := by
  induction xs generalizing ys with
  | nil => left; rfl
  | cons a xs ih =>
    cases ys with
    | nil => right; rfl
    | cons b ys =>
      rcases lt_trichotomy a b with h | h | h
      · left; simp [lexLeChars, h]
      · subst h
        rcases ih ys with h' | h'
        · left; simp [lexLeChars, lt_irrefl, h']
        · right; simp [lexLeChars, lt_irrefl, h']
      · right; simp [lexLeChars, h]

/-- The lexicographic comparator is transitive. -/
theorem lexLeChars_trans (xs ys zs : List Char) (h1 : lexLeChars xs ys = true)
    (h2 : lexLeChars ys zs = true) : lexLeChars xs zs = true := by
  induction xs generalizing ys zs with
  | nil => rfl
  | cons a xs ih =>
    cases ys with
    | nil => simp [lexLeChars] at h1
    | cons b ys =>
      cases zs with
      | nil => simp [lexLeChars] at h2
      | cons c zs =>
        rcases lt_trichotomy a b with hab | hab | hab
        · rcases lt_trichotomy b c with hbc | hbc | hbc
          · simp [lexLeChars, lt_trans hab hbc]
          · subst hbc; simp [lexLeChars, hab]
          · simp [lexLeChars, asymm hbc, hbc] at h2
        · subst hab
          rcases lt_trichotomy a c with hac | hac | hac
          · simp [lexLeChars, hac]
          · subst hac
            simp only [lexLeChars, lt_irrefl, if_false] at h1 h2 ⊢
            exact ih ys zs h1 h2
          · simp [lexLeChars, asymm hac, hac] at h2
        · simp [lexLeChars, asymm hab, hab] at h1

/-- The lexicographic comparator is antisymmetric. -/
theorem lexLeChars_antisymm (xs ys : List Char) (h1 : lexLeChars xs ys = true)
    (h2 : lexLeChars ys xs = true) : xs = ys := by
  induction xs generalizing ys with
  | nil =>
    cases ys with
    | nil => rfl
    | cons b ys => simp [lexLeChars] at h2
  | cons a xs ih =>
    cases ys with
    | nil => simp [lexLeChars] at h1
    | cons b ys =>
      rcases lt_trichotomy a b with hab | hab | hab
      · simp [lexLeChars, asymm hab, hab] at h2
      · subst hab
        simp only [lexLeChars, lt_irrefl, if_false] at h1 h2
        rw [ih ys h1 h2]
      · simp [lexLeChars, asymm hab, hab] at h1

/-- The identifier comparator is reflexive. -/
theorem strLe_refl (a : String) : strLe a a = true := lexLeChars_refl _

/-- The identifier comparator is total. -/
theorem strLe_total (a b : String) : strLe a b = true ∨ strLe b a = true :=
  lexLeChars_total _ _

/-- The identifier comparator is transitive. -/
theorem strLe_trans {a b c : String} (h1 : strLe a b = true) (h2 : strLe b c = true) :
    strLe a c = true :=
  lexLeChars_trans _ _ _ h1 h2

/-- The identifier comparator is antisymmetric. -/
theorem strLe_antisymm {a b : String} (h1 : strLe a b = true) (h2 : strLe b a = true) :
    a = b := by
  have h := lexLeChars_antisymm a.toList b.toList h1 h2
  cases a; cases b
  simp only [String.toList] at h
  rw [h]

/-- Claim C6 (amended): `set` of a note returns the updated workspace (its
resources map gains the note at its normalized id) — not the previously stored
resource — and, for a note whose identifier does not carry the placeholder
scheme (the counterexample shows `Updated` can otherwise fire with no note at
the id), emits `Updated{old, new}` exactly when a resource was already stored
at that id and `Added{new}` otherwise; a `set` of a placeholder inserts into
the placeholder map and emits no event. -/
theorem set_emits_on_note_existence (w : Workspace) (n : Note)
    (h : n.uri.scheme ≠ "placeholder") :
    ((FoamWorkspace.set w (Resource.note n)).2 =
      match mlookup w.resources (uriToResourceId n.uri) with
      | some o => [Event.updated o (Resource.note n)]
      | none => [Event.added (Resource.note n)]) ∧
    (FoamWorkspace.set w (Resource.note n)).1.resources =
      minsert w.resources (uriToResourceId n.uri) (Resource.note n) ∧
    (∀ (w' : Workspace) (u : URI),
      FoamWorkspace.set w' (Resource.placeholder u) =
        ({ w' with placeholders := minsert w'.placeholders u.path (Resource.placeholder u) },
          [])) := by
  refine ⟨?_, ?_, fun w' u => rfl⟩
  · cases hm : mlookup w.resources (uriToResourceId n.uri) <;>
      simp [FoamWorkspace.set, FoamWorkspace.find, FoamWorkspace.exists_, hm, h]
  · cases hm : mlookup w.resources (uriToResourceId n.uri) <;>
      simp [FoamWorkspace.set, FoamWorkspace.find, FoamWorkspace.exists_, hm, h]

/-- Witness for claim C6: on the empty workspace, where nothing is stored at
the id of note `a.md`, `set` emits exactly the `Added` notification. -/
theorem set_emits_witness :
    (FoamWorkspace.set emptyWorkspace (Resource.note noteA)).2 =
      [Event.added (Resource.note noteA)] := by
  have h := set_emits_on_note_existence emptyWorkspace noteA (by decide)
  exact h.1.trans (by decide)

/-- Claim C9 (amended): `exists` is exactly a lookup of the normalized resource
id in the resources map; it is insensitive to the placeholders map (and to the
link maps and name index); the normalized id appends the default `.md`
extension when the path has none; and `exists` is false whenever no note is
stored at the normalized id — in particular for a placeholder identifier whose
normalized id hits no stored note. -/
theorem exists_checks_resources_only :
    (∀ (w : Workspace) (uri : URI),
      FoamWorkspace.exists_ w uri = (mlookup w.resources (uriToResourceId uri)).isSome) ∧
    (∀ (w w' : Workspace) (uri : URI), w.resources = w'.resources →
      FoamWorkspace.exists_ w uri = FoamWorkspace.exists_ w' uri) ∧
    (∀ p : String, pathExt p = "" → pathToResourceId p = p ++ ".md") ∧
    (∀ (w : Workspace) (uri : URI), mlookup w.resources (uriToResourceId uri) = none →
      FoamWorkspace.exists_ w uri = false) := by
  refine ⟨fun w uri => rfl, ?_, ?_, ?_⟩
  · intro w w' uri h
    simp [FoamWorkspace.exists_, h]
  · intro p hp
    simp [pathToResourceId, hp]
  · intro w uri h
    simp [FoamWorkspace.exists_, h]

/-- Witness for claim C9: a placeholder uri whose normalized id names no stored
note — here on the empty workspace — is reported as not existing. -/
theorem exists_checks_resources_only_witness :
    FoamWorkspace.exists_ emptyWorkspace phBU = false :=
  exists_checks_resources_only.2.2.2 emptyWorkspace phBU (by decide)

/-- Claim C8: for a relative-path reference, `find` without an origin returns
no match (not an error); with an origin it looks up the identifier computed
relative to the origin in the resources map and, on a miss there, falls back
to a placeholder keyed by the raw literal reference string — not by the
computed identifier. -/
theorem find_relative_path (w : Workspace) (s : String) (o : URI)
    (hk : getReferenceType (Reference.str s) = RefType.relativePath) :
    (FoamWorkspace.find w (Reference.str s) none).1 = none ∧
    (FoamWorkspace.find w (Reference.str s) (some o)).1 =
      orElseOpt (mlookup w.resources (uriToResourceId (computeRelativeURI o s)))
        (mlookup w.placeholders (pathToPlaceholderId s)) ∧
    (mlookup w.resources (uriToResourceId (computeRelativeURI o s)) = none →
      (FoamWorkspace.find w (Reference.str s) (some o)).1 =
        mlookup w.placeholders (pathToPlaceholderId s)) := by
  refine ⟨?_, ?_, ?_⟩
  · simp [FoamWorkspace.find, hk]
  · simp [FoamWorkspace.find, hk]
  · intro h
    simp [FoamWorkspace.find, hk, h, orElseOpt]

/-- Witness for claim C8: with origin `/dir/a.md`, the relative reference
`sub/b.md` misses the resources map of a workspace holding only a placeholder
keyed by the raw text `sub/b.md`, and `find` returns that placeholder. -/
theorem find_relative_witness :
    (FoamWorkspace.find wRel (Reference.str "sub/b.md") (some oRel)).1 =
      some (Resource.placeholder phRel) := by
  have h := find_relative_path wRel "sub/b.md" oRel (by decide)
  exact (h.2.2 (by decide)).trans (by decide)

/-- Claim C10: `find` never changes the resources, placeholders, links or
backlinks maps; its only effect on the workspace is that the key branch, when
the name has at least two candidate ids, replaces the stored
`resourcesByName` list with its sorted permutation. -/
theorem find_frame (w : Workspace) (r : Reference) (o : Option URI) :
    (FoamWorkspace.find w r o).2.resources = w.resources ∧
    (FoamWorkspace.find w r o).2.placeholders = w.placeholders ∧
    (FoamWorkspace.find w r o).2.links = w.links ∧
    (FoamWorkspace.find w r o).2.backlinks = w.backlinks ∧
    ((FoamWorkspace.find w r o).2.resourcesByName = w.resourcesByName ∨
      ∃ name paths, mlookup w.resourcesByName name = some paths ∧ 2 ≤ paths.length ∧
        paths.Perm (List.insertionSort (fun a b => strLe a b) paths) ∧
        (FoamWorkspace.find w r o).2.resourcesByName =
          minsert w.resourcesByName name (List.insertionSort (fun a b => strLe a b) paths)) := by
  rcases r with u | s
  · by_cases h : (u.scheme == "placeholder") = true <;>
      simp [FoamWorkspace.find, h]
  · cases hgt : getReferenceType (Reference.str s) with
    | uri => simp [FoamWorkspace.find, hgt]
    | absolutePath => simp [FoamWorkspace.find, hgt]
    | relativePath => cases o <;> simp [FoamWorkspace.find, hgt]
    | key =>
      cases hp : mlookup w.resourcesByName (pathToResourceName s) with
      | none => simp [FoamWorkspace.find, hgt, hp]
      | some paths =>
        by_cases h0 : (paths.length == 0) = true
        · simp [FoamWorkspace.find, hgt, hp, h0]
        · by_cases hone : (paths.length == 1) = true
          · simp [FoamWorkspace.find, hgt, hp, h0, hone]
          · have hfind : (FoamWorkspace.find w (Reference.str s) o).2 = { w with resourcesByName := minsert w.resourcesByName (pathToResourceName s) (List.insertionSort (fun a b => strLe a b) paths) } := by
              simp [FoamWorkspace.find, hgt, hp, h0, hone]
            rw [hfind]
            refine ⟨rfl, rfl, rfl, rfl,
              Or.inr ⟨pathToResourceName s, paths, hp, ?_,
                (List.perm_insertionSort _ paths).symm, rfl⟩⟩
            simp only [beq_iff_eq] at h0 hone
            omega

/-- Claim C7: when a short-key lookup finds two or more candidate ids for the
reference's basename, `find` returns the resource stored at the
lexicographically smallest id, and the outcome is independent of the order in
which the ids were recorded (any permutation of the candidate list, over the
same resources map, yields the same result). -/
theorem find_key_picks_smallest (w : Workspace) (s : String) (paths : List String)
    (hk : getReferenceType (Reference.str s) = RefType.key)
    (h1 : mlookup w.resourcesByName (pathToResourceName s) = some paths)
    (h2 : 2 ≤ paths.length) :
    ∃ m, m ∈ paths ∧ (∀ x ∈ paths, strLe m x = true) ∧
      (FoamWorkspace.find w (Reference.str s) none).1 = mlookup w.resources m ∧
      (∀ (w' : Workspace) (paths' : List String),
        mlookup w'.resourcesByName (pathToResourceName s) = some paths' →
        paths.Perm paths' → w'.resources = w.resources →
        (FoamWorkspace.find w' (Reference.str s) none).1 =
          (FoamWorkspace.find w (Reference.str s) none).1) := by
  haveI : IsTotal String (fun a b => strLe a b = true) := ⟨strLe_total⟩
  haveI : IsTrans String (fun a b => strLe a b = true) := ⟨fun a b c => strLe_trans⟩
  haveI : IsAntisymm String (fun a b => strLe a b = true) := ⟨fun a b => strLe_antisymm⟩
  have hperm : (List.insertionSort (fun a b => strLe a b) paths).Perm paths :=
    List.perm_insertionSort _ _
  have hsorted : List.Sorted (fun a b => strLe a b = true)
      (List.insertionSort (fun a b => strLe a b) paths) :=
    List.sorted_insertionSort _ _
  have hne0 : (paths.length == 0) = false := by
    simp only [beq_eq_false_iff_ne, ne_eq]
    omega
  have hne1 : (paths.length == 1) = false := by
    simp only [beq_eq_false_iff_ne, ne_eq]
    omega
  cases hLc : List.insertionSort (fun a b => strLe a b) paths with
  | nil =>
    exfalso
    have hl := hperm.length_eq
    rw [hLc] at hl
    simp at hl
    omega
  | cons m t =>
    rw [hLc] at hperm hsorted
    have hmem : m ∈ paths := hperm.subset (List.mem_cons_self m t)
    have hmin : ∀ x ∈ paths, strLe m x = true := by
      intro x hx
      have hxL : x ∈ m :: t := (hperm.mem_iff).mpr hx
      rcases List.mem_cons.mp hxL with h | h
      · rw [h]; exact strLe_refl m
      · exact (List.sorted_cons.mp hsorted).1 x h
    have hfind : (FoamWorkspace.find w (Reference.str s) none).1 = mlookup w.resources m := by
      simp [FoamWorkspace.find, hk, h1, hne0, hne1, hLc]
    refine ⟨m, hmem, hmin, hfind, ?_⟩
    intro w' paths' h1' hpp hres
    have hlen' : paths'.length = paths.length := hpp.symm.length_eq
    have hne0' : (paths'.length == 0) = false := by
      simp only [beq_eq_false_iff_ne, ne_eq]
      omega
    have hne1' : (paths'.length == 1) = false := by
      simp only [beq_eq_false_iff_ne, ne_eq]
      omega
    have hse : List.insertionSort (fun a b => strLe a b) paths' = m :: t := by
      apply List.eq_of_perm_of_sorted
        ((List.perm_insertionSort _ paths').trans (hpp.symm.trans hperm.symm))
        (List.sorted_insertionSort _ _) hsorted
    have hfind' : (FoamWorkspace.find w' (Reference.str s) none).1 =
        mlookup w'.resources m := by
      simp [FoamWorkspace.find, hk, h1', hne0', hne1', hse]
    rw [hfind', hfind, hres]

/-- Witness for claim C7: with notes at `/a/note.md` and `/b/note.md` inserted
larger-id-first, `find` of the slug `note` returns the note at `/a/note.md`. -/
theorem find_key_witness :
    (FoamWorkspace.find wNotes (Reference.str "note") none).1 =
      some (Resource.note noteAN) := by
  obtain ⟨m, hmem, hmin, heq, _⟩ :=
    find_key_picks_smallest wNotes "note" ["/b/note.md", "/a/note.md"]
      (by decide) (by decide) (by decide)
  have hma := hmin "/a/note.md" (by decide)
  have hm2 : m = "/b/note.md" ∨ m = "/a/note.md" := by simpa using hmem
  rcases hm2 with hm | hm
  · rw [hm] at hma
    exact absurd hma (by decide)
  · rw [hm] at heq
    exact heq.trans (by decide)
